import Mathlib

/-!
Verification of the task-orchestration behaviour of `pterodactyl-files`.

The embedding covers:
* `src/docker/runtime/build.py` — config resolution, the per-verb retry loops
  (`build_image`, `push_image`, `delete_image`), the thread-pool dispatch in
  `run_tasks`, the SIGINT handler, and the exit-code computation in `main`.
* `src/builder/runtime/minecraft/mcdr/build.py` — the image matrix
  (`iterate_all`) and the sequential `cmd_build` loop.

The Docker daemon is an external collaborator: each call site takes an oracle
(`BuildRequest → Nat → Except String Unit`, attempt index → result) whose
`Except.error` value models the exception text `str(e)`.
-/

namespace PteroFiles

/-- One entry of the `build:` list of `config.yml`.  `none` fields model
missing keys, read through `dict.get` with the defaults used in the source. -/
structure BuildConfig where
  tag : String
  build_type : Option String := none
  region : Option String := none
  build_dir : Option String := none
  build_args : List (String × String) := []
  deriving Repr, DecidableEq

/-- The `upload:` section of the configuration (`config["upload"]`). -/
structure UploadConfig where
  username : Option String := none
  password : Option String := none
  registry : Option String := none
  deriving Repr, DecidableEq

/-- The global configuration dictionary.  Each field is `none` when the key is
absent; readers apply the same defaults as the corresponding
`config.get(key, default)` calls in `src/docker/runtime/build.py`. -/
structure Config where
  max_retries : Option Nat := none
  retry_delay : Option Nat := none
  no_cache : Option Bool := none
  region : Option String := none
  build_dir : Option String := none
  max_parallel_tasks : Option Nat := none
  force_delete : Option Bool := none
  prune_after_delete : Option Bool := none
  upload : Option UploadConfig := none
  deriving Repr, DecidableEq

/-- Python truthiness of an optional string: `None` and `""` are falsy. -/
def truthy (o : Option String) : Bool :=
  !(o.getD "" == "")

/-- Assoc-list update modelling Python dict assignment `d[k] = v` (dict keys are
unique; an existing key keeps its position, a new key is appended). -/
def setArg : List (String × String) → String → String → List (String × String)
  | [], k, v => [(k, v)]
  | (k', v') :: rest, k, v =>
      if k' = k then (k, v) :: rest else (k', v') :: setArg rest k v

/-- Assoc-list lookup modelling Python dict lookup `d[k]`. -/
def lookupArg : List (String × String) → String → Option String
  | [], _ => none
  | (k', v) :: rest, k => if k' = k then some v else lookupArg rest k

/-- Observable events of one retry loop: the numbered attempts (as logged by
`Attempt {attempt + 1}/{max_retries}`) and the `time.sleep(retry_delay)`
backoff calls between failed attempts. -/
inductive Event where
  | attempt (n : Nat)
  | sleep (secs : Nat)
  deriving Repr, DecidableEq

def isAttempt : Event → Bool
  | .attempt _ => true
  | _ => false

def isSleepEv : Event → Bool
  | .sleep _ => true
  | _ => false

/-- Result of one retry loop: the returned value (`some true` / `some false`
for `return True` / `return False`; `none` when the `for` loop body never ran
and the function fell through, i.e. `max_retries = 0`), the event trace, and
the messages appended to the global `error_summary`. -/
structure LoopResult where
  ret : Option Bool
  events : List Event
  errors : List String
  deriving Repr, DecidableEq

def attemptsOf (r : LoopResult) : Nat := r.events.countP isAttempt

def sleepsOf (r : LoopResult) : Nat := r.events.countP isSleepEv

/-- The body of `for attempt in range(max_retries)` shared by `build_image`,
`push_image` and `delete_image`:

```
try:
    <operation>; return True
except Exception as e:
    if attempt < max_retries - 1: time.sleep(retry_delay)
    else: add_to_error_summary(mkErr(str(e))); return False
```

`fuel` is the number of remaining loop iterations (`max_retries - attempt`).
The loop contains no cancellation check of any kind. -/
def retryLoopAux (op : Nat → Except String Unit) (maxRetries retryDelay : Nat)
    (mkErr : String → String) : Nat → Nat → LoopResult
  | _, 0 => ⟨none, [], []⟩
  | attempt, fuel + 1 =>
      match op attempt with
      | .ok _ => ⟨some true, [.attempt (attempt + 1)], []⟩
      | .error e =>
          if attempt < maxRetries - 1 then
            let rest := retryLoopAux op maxRetries retryDelay mkErr (attempt + 1) fuel
            ⟨rest.ret, .attempt (attempt + 1) :: .sleep retryDelay :: rest.events, rest.errors⟩
          else
            ⟨some false, [.attempt (attempt + 1)], [mkErr e]⟩

def retryLoop (op : Nat → Except String Unit) (maxRetries retryDelay : Nat)
    (mkErr : String → String) : LoopResult :=
  retryLoopAux op maxRetries retryDelay mkErr 0 maxRetries

def buildErrMsg (tag : String) (maxRetries : Nat) (e : String) : String :=
  "Failed to build image " ++ tag ++ " after " ++ toString maxRetries ++ " attempts: " ++ e

def pushErrMsg (tag : String) (maxRetries : Nat) (e : String) : String :=
  "Failed to push image " ++ tag ++ " after " ++ toString maxRetries ++ " attempts: " ++ e

def deleteErrMsg (tag : String) (maxRetries : Nat) (e : String) : String :=
  "Failed to delete image " ++ tag ++ " after " ++ toString maxRetries ++ " attempts: " ++ e

/-- Region resolution in `build_image`: build-level `region`, else global
`region`, else `"global"`; any value other than `"global"`/`"china"` is
replaced by `"global"` after a warning log. -/
def resolvedRegion (bc : BuildConfig) (cfg : Config) : String :=
  let r := bc.region.getD (cfg.region.getD "global")
  if r = "global" ∨ r = "china" then r else "global"

/-- The argument record passed to `client.images.build(...)`. -/
structure BuildRequest where
  path : String
  dockerfile : String
  tag : String
  buildargs : List (String × String)
  nocache : Bool
  deriving Repr, DecidableEq

/-- The `client.images.build` call that `build_image` makes, assembled from the
configuration exactly as in the source: `build_dir` falls back to the global
`build_dir` then `"."`, `dockerfile = "Dockerfile"`, and the user-supplied
`build_args` dict gets `REGION` and `TYPE` assigned. -/
def buildRequestOf (bc : BuildConfig) (cfg : Config) : BuildRequest where
  path := bc.build_dir.getD (cfg.build_dir.getD ".")
  dockerfile := "Dockerfile"
  tag := bc.tag
  buildargs := setArg (setArg bc.build_args "REGION" (resolvedRegion bc cfg))
      "TYPE" (bc.build_type.getD "vanilla")
  nocache := cfg.no_cache.getD false

/-- `build_image(build_config, global_config, ...)`: resolve the configuration,
then run the retry loop around `client.images.build`.  `dop` is the Docker
collaborator oracle (request, attempt index ↦ outcome). -/
def build_image (bc : BuildConfig) (cfg : Config)
    (dop : BuildRequest → Nat → Except String Unit) : LoopResult :=
  retryLoop (dop (buildRequestOf bc cfg)) (cfg.max_retries.getD 3)
    (cfg.retry_delay.getD 5) (buildErrMsg bc.tag (cfg.max_retries.getD 3))

/-- The argument record passed to `client.images.push(...)`. -/
structure PushRequest where
  repository : String
  auth : Option (String × String)
  deriving Repr, DecidableEq

/-- `push_image(tag, config)`: returns `none` when `config["upload"]` is absent
(the source raises `KeyError` before any attempt).  The repository and auth
dict are computed inside the loop in the source, but from pure inputs, so the
value is the same on every attempt. -/
def push_image (tag : String) (cfg : Config)
    (dpush : PushRequest → Nat → Except String Unit) : Option LoopResult :=
  match cfg.upload with
  | none => none
  | some up =>
      let auth : Option (String × String) :=
        if truthy up.username && truthy up.password then
          some (up.username.getD "", up.password.getD "")
        else none
      let repository := if truthy up.registry then up.registry.getD "" ++ "/" ++ tag else tag
      some (retryLoop (dpush ⟨repository, auth⟩) (cfg.max_retries.getD 3)
        (cfg.retry_delay.getD 5) (pushErrMsg tag (cfg.max_retries.getD 3)))

/-- `delete_image(tag, config)`: the removal is attempted directly through the
retry loop — there is no existence probe before `client.images.remove`.
`remove` is the collaborator oracle for `client.images.remove(tag, force=force)`;
the optional `client.images.prune()` call after a successful removal only
prunes dangling images and is not modelled (no claim touches it). -/
def delete_image (tag : String) (cfg : Config)
    (remove : Nat → Except String Unit) : LoopResult :=
  retryLoop remove (cfg.max_retries.getD 3) (cfg.retry_delay.getD 5)
    (deleteErrMsg tag (cfg.max_retries.getD 3))

/-- Docker collaborator model for `client.images.remove`: removing a tag that
is not in the local image store raises `docker.errors.ImageNotFound`. -/
def imageRemove (images : List String) (tag : String) : Except String Unit :=
  if images.contains tag then .ok () else .error ("404 Client Error: image not found: " ++ tag)

/-- Tag filtering at the top of `run_tasks`:
`if tags: builds = [b for b in builds if b["tag"] in tags]`.
An absent `-t` option and an empty list are both falsy, so `[]` stands for
"no tag filter". -/
def filterBuilds (builds : List BuildConfig) (tags : List String) : List BuildConfig :=
  if tags.isEmpty then builds else builds.filter (fun b => tags.contains b.tag)

/-- `run_tasks(config, "build", tags)` on a run with no interrupt signal: every
filtered build is submitted once to the executor and runs `build_image` to
completion; the outcome list is the per-job loop results (completion order is
irrelevant to the aggregate, so list order stands in for it). -/
def run_tasks_build (builds : List BuildConfig) (cfg : Config) (tags : List String)
    (dop : BuildRequest → Nat → Except String Unit) : List LoopResult :=
  (filterBuilds builds tags).map (fun bc => build_image bc cfg dop)

/-- The global `error_summary` accumulated by a list of job results. -/
def runErrors (rs : List LoopResult) : List String := rs.flatMap (fun r => r.errors)

/-- The tail of `main()`: `print_error_summary()` prints `errors`, then
`sys.exit(1) if sigint_count > 0 else sys.exit(0)`.  The summary is printed
but plays no part in the exit decision. -/
def processExit (errors : List String) (sigintCount : Nat) : Nat :=
  if 0 < sigintCount then 1 else 0

/-- The process-level state touched by `signal_handler`: the global
`sigint_count`, the `stop_event` flag, and `some code` once `os._exit(code)`
has been called. -/
structure ProcState where
  sigint_count : Nat
  stop_event : Bool
  exited : Option Nat
  deriving Repr, DecidableEq

def procStart : ProcState := ⟨0, false, none⟩

/-- `signal_handler(signum, frame)`: first SIGINT sets `stop_event`; any
further SIGINT calls `os._exit(1)` after printing the error summary. -/
def signal_handler (s : ProcState) : ProcState :=
  let c := s.sigint_count + 1
  if c = 1 then { s with sigint_count := c, stop_event := true }
  else { s with sigint_count := c, exited := some 1 }

/-- The spec's two-level cancellation state.  Needed to state the claims about
cancellation behaviour; the source represents it by `stop_event` (soft) plus
`sigint_count >= 2` (hard). -/
inductive CancellationState where
  | Running
  | SoftStopRequested
  | HardStopRequested
  deriving Repr, DecidableEq

/-- `build_image` as executed while cancellation state `c` is in force.  The
retry loops of `build.py` read neither `stop_event` nor `sigint_count`
(grep: no reference inside `build_image`/`push_image`/`delete_image`), so the
computation is literally the same function for every `c`. -/
def build_image_underCancellation (_c : CancellationState) (bc : BuildConfig)
    (cfg : Config) (dop : BuildRequest → Nat → Except String Unit) : LoopResult :=
  build_image bc cfg dop

/-- Outcome of a `run_tasks` invocation cut short by a first SIGINT: when the
`as_completed` loop observes `stop_event`, it calls `f.cancel()` on every
future and breaks.  Futures that had already started (`started bc = true`,
the scheduler's choice) run their work item to completion; cancelled futures
never run and leave no record of any kind.  `sigintCount = 1` because exactly
the first signal sets `stop_event`. -/
structure SoftStopRun where
  executed : List (BuildConfig × LoopResult)
  cancelled : List BuildConfig
  sigintCount : Nat
  deriving Repr, DecidableEq

def run_tasks_softStop (builds : List BuildConfig) (cfg : Config)
    (started : BuildConfig → Bool)
    (dop : BuildRequest → Nat → Except String Unit) : SoftStopRun where
  executed := (builds.filter (fun b => started b)).map (fun bc => (bc, build_image bc cfg dop))
  cancelled := builds.filter (fun b => !(started b))
  sigintCount := 1

/-- State of the `ThreadPoolExecutor(max_workers=N)` used by `run_tasks`:
futures not yet picked up by a worker, work items currently executing, and
finished items with their results. -/
structure PoolState where
  pending : List BuildConfig
  running : List BuildConfig
  done : List (BuildConfig × LoopResult)
  deriving Repr, DecidableEq

/-- Transition relation of the executor: a worker may pick up a pending item
only while fewer than `N` items are running (the documented `max_workers`
bound), and a running item finishes by computing `exec` on it.  Item selection
is left nondeterministic (the real queue is FIFO, a special case). -/
inductive PoolStep (N : Nat) (exec : BuildConfig → LoopResult) :
    PoolState → PoolState → Prop
  | start (bc : BuildConfig) (p₁ p₂ : List BuildConfig) (s : PoolState) :
      s.pending = p₁ ++ bc :: p₂ → s.running.length < N →
      PoolStep N exec s ⟨p₁ ++ p₂, bc :: s.running, s.done⟩
  | finish (bc : BuildConfig) (r₁ r₂ : List BuildConfig) (s : PoolState) :
      s.running = r₁ ++ bc :: r₂ →
      PoolStep N exec s ⟨s.pending, r₁ ++ r₂, (bc, exec bc) :: s.done⟩

/-- Initial pool state: all submitted jobs pending, nothing running or done. -/
def poolStart (jobs : List BuildConfig) : PoolState := ⟨jobs, [], []⟩

def PoolReachable (N : Nat) (exec : BuildConfig → LoopResult)
    (jobs : List BuildConfig) (s : PoolState) : Prop :=
  Relation.ReflTransGen (PoolStep N exec) (poolStart jobs) s

/-! ### `src/builder/runtime/minecraft/mcdr/build.py` -/

/-- One element of the build matrix (`Context` in the source). -/
structure Context where
  system : String
  java : String
  mcdr : String
  tag : String
  deriving Repr, DecidableEq

def mkMcdrTag (system java mcdr : String) : String :=
  "bluefunny/pterodactyl:minecraft-mcdr-" ++ system ++ "-" ++ java ++ "-" ++ mcdr

/-- `iterate_all()`: the full cross product
`['debian'] × [7, 8, 11, 17, 21] × ['latest', '2.12', '2.11', '2.10']`. -/
def iterate_all : List Context :=
  (["debian"] : List String).flatMap fun system =>
    ([7, 8, 11, 17, 21] : List Nat).flatMap fun java =>
      (["latest", "2.12", "2.11", "2.10"] : List String).map fun mcdr =>
        ⟨system, toString java, mcdr, mkMcdrTag system (toString java) mcdr⟩

/-- The MCDR requirement string computed in `cmd_build`. -/
def mcdr_req (mcdr : String) : String :=
  if mcdr = "latest" then "mcdreforged" else "mcdreforged~=" ++ mcdr

/-- Subprocess commands issued by the mcdr script (the parts that vary). -/
inductive McdrCmd where
  | build (ctx : Context) (mcdrReq : String) (httpProxy : Option String)
  | push (tag : String)
  | rm (tag : String)
  deriving Repr, DecidableEq

def buildCmdOf (proxy : Option String) (ctx : Context) : McdrCmd :=
  .build ctx (mcdr_req ctx.mcdr) proxy

def isBuildCmd : McdrCmd → Bool
  | .build _ _ _ => true
  | _ => false

/-- `cmd_build(args)` over a context list: for each context, `docker build`
via `subprocess.check_call`; if it fails, `CalledProcessError` propagates and
the loop stops.  With `--push`, a `docker push` of the same tag follows
immediately, and its failure likewise stops the loop.  `ok` is the
collaborator oracle (does the subprocess exit 0?).  Returns the trace of
commands attempted, in order, and whether the loop ran to completion. -/
def cmd_build_aux (push : Bool) (proxy : Option String) (ok : McdrCmd → Bool) :
    List Context → List McdrCmd × Bool
  | [] => ([], true)
  | ctx :: rest =>
      let b := buildCmdOf proxy ctx
      if ok b then
        if push then
          let p := McdrCmd.push ctx.tag
          if ok p then
            let r := cmd_build_aux push proxy ok rest
            (b :: p :: r.1, r.2)
          else ([b, p], false)
        else
          let r := cmd_build_aux push proxy ok rest
          (b :: r.1, r.2)
      else ([b], false)

def cmd_build (push : Bool) (proxy : Option String) (ok : McdrCmd → Bool) :
    List McdrCmd × Bool :=
  cmd_build_aux push proxy ok iterate_all

/-! ### Concrete inputs used by counterexamples and witnesses -/

def bcFail : BuildConfig := { tag := "app:1" }

def bcA : BuildConfig := { tag := "a" }

def bcB : BuildConfig := { tag := "b" }

/-- Collaborator that fails every build attempt with the same error. -/
def dopFail : BuildRequest → Nat → Except String Unit := fun _ _ => .error "boom"

/-- Collaborator that succeeds immediately. -/
def dopOk : BuildRequest → Nat → Except String Unit := fun _ _ => .ok ()

/-- Collaborator that fails the first two attempts, then succeeds. -/
def dopFlaky : BuildRequest → Nat → Except String Unit :=
  fun _ i => if i < 2 then .error ("boom" ++ toString i) else .ok ()

def errFlaky : Nat → String := fun i => "boom" ++ toString i

def errConst : Nat → String := fun _ => "boom"

/-- Scheduler choice for the soft-stop counterexample: only `a` had started. -/
def startedA : BuildConfig → Bool := fun b => b.tag == "a"

/-- mcdr collaborator for which every `docker build` fails. -/
def okFailAllBuilds : McdrCmd → Bool := fun c => !(isBuildCmd c)

/-- mcdr collaborator for which every subprocess succeeds. -/
def okAll : McdrCmd → Bool := fun _ => true

/-- Configuration with an (empty) `upload:` section present. -/
def cfgUp : Config := { upload := some {} }

/-- Configuration with `max_retries: 2`. -/
def cfgTwo : Config := { max_retries := some 2 }

/-- Push collaborator that fails every attempt. -/
def popFail : PushRequest → Nat → Except String Unit := fun _ _ => .error "boom"

/-- The first context yielded by `iterate_all`. -/
def mcdrCtx1 : Context :=
  ⟨"debian", "7", "latest", "bluefunny/pterodactyl:minecraft-mcdr-debian-7-latest"⟩

/-- The second context yielded by `iterate_all`. -/
def mcdrCtx2 : Context :=
  ⟨"debian", "7", "2.12", "bluefunny/pterodactyl:minecraft-mcdr-debian-7-2.12"⟩

/-- Intermediate pool state of the two-step witness run: `a` has been picked
up by a worker. -/
def poolS1 : PoolState := ⟨[], [bcA], []⟩

/-- Final pool state of the two-step witness run: `a` has finished. -/
def poolS2 : PoolState := ⟨[], [], [(bcA, build_image bcA {} dopOk)]⟩

/-- Event trace of a retry loop whose operation fails on all of its `f`
attempts (zero-based start index `a`): a backoff sleep follows every attempt
except the last. -/
def allFailEvents (a f d : Nat) : List Event :=
  match f with
  | 0 => []
  | 1 => [.attempt (a + 1)]
  | f + 2 => .attempt (a + 1) :: .sleep d :: allFailEvents (a + 1) (f + 1) d

/-- Event trace of a retry loop whose operation fails `k` times and then
succeeds: a backoff sleep of `d` seconds between each pair of consecutive
attempts, `k + 1` attempts in total. -/
def failThenOkEvents (a k d : Nat) : List Event :=
  match k with
  | 0 => [.attempt (a + 1)]
  | k + 1 => .attempt (a + 1) :: .sleep d :: failThenOkEvents (a + 1) k d

/-! ### Helper lemmas about the retry loop -/

theorem retryLoopAux_ok (op : Nat → Except String Unit) (m d : Nat)
    (mkE : String → String) (a fuel : Nat) (he : op a = .ok ()) :
    retryLoopAux op m d mkE a (fuel + 1) = ⟨some true, [.attempt (a + 1)], []⟩ := by
  simp [retryLoopAux, he]

theorem retryLoopAux_err_sleep (op : Nat → Except String Unit) (m d : Nat)
    (mkE : String → String) (a fuel : Nat) (e : String)
    (he : op a = .error e) (hlt : a < m - 1) :
    retryLoopAux op m d mkE a (fuel + 1) =
      ⟨(retryLoopAux op m d mkE (a + 1) fuel).ret,
       .attempt (a + 1) :: .sleep d :: (retryLoopAux op m d mkE (a + 1) fuel).events,
       (retryLoopAux op m d mkE (a + 1) fuel).errors⟩ := by
  simp [retryLoopAux, he, hlt]

theorem retryLoopAux_err_last (op : Nat → Except String Unit) (m d : Nat)
    (mkE : String → String) (a fuel : Nat) (e : String)
    (he : op a = .error e) (hlt : ¬ a < m - 1) :
    retryLoopAux op m d mkE a (fuel + 1) = ⟨some false, [.attempt (a + 1)], [mkE e]⟩ := by
  simp [retryLoopAux, he, hlt]

theorem retryLoopAux_allFail (op : Nat → Except String Unit) (errf : Nat → String)
    (m d : Nat) (mkE : String → String) (hop : ∀ i, op i = .error (errf i)) :
    ∀ f a, a + f = m → 1 ≤ f →
      retryLoopAux op m d mkE a f =
        ⟨some false, allFailEvents a f d, [mkE (errf (m - 1))]⟩ := by
  intro f
  induction f with
  | zero => intro a _ h; omega
  | succ f ih =>
    intro a ha _
    cases f with
    | zero =>
      have hlt : ¬ a < m - 1 := by omega
      have ha' : a = m - 1 := by omega
      rw [retryLoopAux_err_last op m d mkE a 0 (errf a) (hop a) hlt]
      simp [allFailEvents, ha']
    | succ f' =>
      have hlt : a < m - 1 := by omega
      rw [retryLoopAux_err_sleep op m d mkE a (f' + 1) (errf a) (hop a) hlt]
      rw [ih (a + 1) (by omega) (by omega)]
      simp [allFailEvents]

theorem retryLoop_allFail (op : Nat → Except String Unit) (errf : Nat → String)
    (m d : Nat) (mkE : String → String) (hop : ∀ i, op i = .error (errf i))
    (hm : 1 ≤ m) :
    retryLoop op m d mkE = ⟨some false, allFailEvents 0 m d, [mkE (errf (m - 1))]⟩ :=
  retryLoopAux_allFail op errf m d mkE hop m 0 (by omega) hm

theorem retryLoopAux_failThenOk (op : Nat → Except String Unit) (errf : Nat → String)
    (m d : Nat) (mkE : String → String) :
    ∀ k a, a + k < m → (∀ i, a ≤ i → i < a + k → op i = .error (errf i)) →
      op (a + k) = .ok () →
      retryLoopAux op m d mkE a (m - a) =
        ⟨some true, failThenOkEvents a k d, []⟩ := by
  intro k
  induction k with
  | zero =>
    intro a ha _ hok
    obtain ⟨f, hf⟩ : ∃ f, m - a = f + 1 := ⟨m - a - 1, by omega⟩
    rw [show a + 0 = a from rfl] at hok
    rw [hf, retryLoopAux_ok op m d mkE a f hok]
    simp [failThenOkEvents]
  | succ k ih =>
    intro a ha hfail hok
    obtain ⟨f, hf⟩ : ∃ f, m - a = f + 1 := ⟨m - a - 1, by omega⟩
    have hlt : a < m - 1 := by omega
    have hfst : op a = .error (errf a) := hfail a (le_refl a) (by omega)
    rw [hf, retryLoopAux_err_sleep op m d mkE a f (errf a) hfst hlt]
    have hff : f = m - (a + 1) := by omega
    rw [hff]
    rw [ih (a + 1) (by omega) (fun i h1 h2 => hfail i (by omega) (by omega))
      (by rw [show a + 1 + k = a + (k + 1) from by omega]; exact hok)]
    simp [failThenOkEvents]

theorem retryLoop_failThenOk (op : Nat → Except String Unit) (errf : Nat → String)
    (m d : Nat) (mkE : String → String) (k : Nat) (hk : k < m)
    (hfail : ∀ i, i < k → op i = .error (errf i)) (hok : op k = .ok ()) :
    retryLoop op m d mkE = ⟨some true, failThenOkEvents 0 k d, []⟩ := by
  have h := retryLoopAux_failThenOk op errf m d mkE k 0 (by omega)
    (fun i _ h2 => hfail i (by omega)) (by simpa using hok)
  rw [retryLoop, show m = m - 0 from rfl]
  exact h

theorem countP_attempt_allFail (d : Nat) :
    ∀ f a, (allFailEvents a f d).countP isAttempt = f := by
  intro f
  induction f with
  | zero => intro a; simp [allFailEvents]
  | succ f ih =>
    intro a
    cases f with
    | zero => simp [allFailEvents, isAttempt, List.countP_cons]
    | succ f' =>
      simp only [allFailEvents, List.countP_cons, ih (a + 1)]
      simp [isAttempt]

theorem countP_sleep_allFail (d : Nat) :
    ∀ f a, (allFailEvents a f d).countP isSleepEv = f - 1 := by
  intro f
  induction f with
  | zero => intro a; simp [allFailEvents]
  | succ f ih =>
    intro a
    cases f with
    | zero => simp [allFailEvents, isSleepEv, List.countP_cons]
    | succ f' =>
      simp only [allFailEvents, List.countP_cons, ih (a + 1)]
      simp [isSleepEv]

theorem countP_attempt_failThenOk (d : Nat) :
    ∀ k a, (failThenOkEvents a k d).countP isAttempt = k + 1 := by
  intro k
  induction k with
  | zero => intro a; simp [failThenOkEvents, isAttempt, List.countP_cons]
  | succ k ih =>
    intro a
    simp only [failThenOkEvents, List.countP_cons, ih (a + 1)]
    simp [isAttempt]

theorem countP_sleep_failThenOk (d : Nat) :
    ∀ k a, (failThenOkEvents a k d).countP isSleepEv = k := by
  intro k
  induction k with
  | zero => intro a; simp [failThenOkEvents, isSleepEv, List.countP_cons]
  | succ k ih =>
    intro a
    simp only [failThenOkEvents, List.countP_cons, ih (a + 1)]
    simp [isSleepEv]

theorem lookupArg_setArg_self (args : List (String × String)) (k v : String) :
    lookupArg (setArg args k v) k = some v := by
  induction args with
  | nil => simp [setArg, lookupArg]
  | cons hd tl ih =>
    obtain ⟨k', v'⟩ := hd
    by_cases h : k' = k
    · simp [setArg, h, lookupArg]
    · simp [setArg, h, lookupArg, ih]

theorem lookupArg_setArg_ne (args : List (String × String)) (k₁ k₂ v : String)
    (h : k₂ ≠ k₁) :
    lookupArg (setArg args k₂ v) k₁ = lookupArg args k₁ := by
  induction args with
  | nil => simp [setArg, lookupArg, h]
  | cons hd tl ih =>
    obtain ⟨k', v'⟩ := hd
    by_cases hk : k' = k₂
    · subst hk
      simp [setArg, lookupArg, h]
    · simp [setArg, hk, lookupArg, ih]

/-! ### Claim theorems -/

/-- Claim C7: for every job whose underlying operation fails on every attempt,
the final outcome is `Failed` (`return False`) with attempts equal to the
configured `max_retries`, and the last failure's error message is the one
surfaced in the error-summary entry of the final report.  Shown for the build
retry loop (`build_image`) and the push retry loop (`push_image`). -/
theorem job_always_failing_exhausts_retries
    (bc : BuildConfig) (cfg : Config) (tag : String) (up : UploadConfig)
    (dop : BuildRequest → Nat → Except String Unit)
    (pop : PushRequest → Nat → Except String Unit)
    (errb errp : Nat → String)
    (hm : 1 ≤ cfg.max_retries.getD 3)
    (hb : ∀ r i, dop r i = .error (errb i))
    (hp : ∀ r i, pop r i = .error (errp i))
    (hup : cfg.upload = some up) :
    ((build_image bc cfg dop).ret = some false ∧
     attemptsOf (build_image bc cfg dop) = cfg.max_retries.getD 3 ∧
     (build_image bc cfg dop).errors =
       [buildErrMsg bc.tag (cfg.max_retries.getD 3)
         (errb (cfg.max_retries.getD 3 - 1))]) ∧
    ∃ r, push_image tag cfg pop = some r ∧ r.ret = some false ∧
      attemptsOf r = cfg.max_retries.getD 3 ∧
      r.errors = [pushErrMsg tag (cfg.max_retries.getD 3)
        (errp (cfg.max_retries.getD 3 - 1))] := by
  have hbuild : build_image bc cfg dop =
      ⟨some false, allFailEvents 0 (cfg.max_retries.getD 3) (cfg.retry_delay.getD 5),
       [buildErrMsg bc.tag (cfg.max_retries.getD 3) (errb (cfg.max_retries.getD 3 - 1))]⟩ :=
    retryLoop_allFail _ errb _ _ _ (fun i => hb _ i) hm
  refine ⟨⟨?_, ?_, ?_⟩, ?_⟩
  · rw [hbuild]
  · rw [attemptsOf, hbuild]
    exact countP_attempt_allFail _ _ _
  · rw [hbuild]
  · refine ⟨⟨some false,
      allFailEvents 0 (cfg.max_retries.getD 3) (cfg.retry_delay.getD 5),
      [pushErrMsg tag (cfg.max_retries.getD 3) (errp (cfg.max_retries.getD 3 - 1))]⟩,
      ?_, rfl, ?_, rfl⟩
    · rw [push_image, hup]
      simp only
      rw [retryLoop_allFail _ errp _ _ _ (fun i => hp _ i) hm]
    · exact countP_attempt_allFail _ _ _

/-- Witness for C7 at `max_retries = 3` (default), a build and a push whose
collaborator fails every attempt with `"boom"`. -/
theorem job_always_failing_exhausts_retries_witness :
    ((build_image bcFail cfgUp dopFail).ret = some false ∧
     attemptsOf (build_image bcFail cfgUp dopFail) = 3 ∧
     (build_image bcFail cfgUp dopFail).errors =
       ["Failed to build image app:1 after 3 attempts: boom"]) ∧
    ∃ r, push_image "app:1" cfgUp popFail = some r ∧ r.ret = some false ∧
      attemptsOf r = 3 ∧
      r.errors = ["Failed to push image app:1 after 3 attempts: boom"] :=
  job_always_failing_exhausts_retries bcFail cfgUp "app:1" {} dopFail popFail
    errConst errConst (by decide) (fun _ _ => rfl) (fun _ _ => rfl) rfl

/-- Claim C8: for every job whose underlying operation fails exactly `k` times
with `k < max_retries` and then succeeds, the outcome is `Success`
(`return True`) with `k + 1` attempts, and the configured `retry_delay` is
slept between each pair of consecutive attempts (the event trace is exactly
attempt, sleep, attempt, sleep, …, attempt). -/
theorem build_retry_fail_then_succeed
    (bc : BuildConfig) (cfg : Config)
    (dop : BuildRequest → Nat → Except String Unit) (errf : Nat → String) (k : Nat)
    (hk : k < cfg.max_retries.getD 3)
    (hfail : ∀ r i, i < k → dop r i = .error (errf i))
    (hok : ∀ r, dop r k = .ok ()) :
    (build_image bc cfg dop).ret = some true ∧
    attemptsOf (build_image bc cfg dop) = k + 1 ∧
    sleepsOf (build_image bc cfg dop) = k ∧
    (build_image bc cfg dop).events = failThenOkEvents 0 k (cfg.retry_delay.getD 5) := by
  have hbuild : build_image bc cfg dop =
      ⟨some true, failThenOkEvents 0 k (cfg.retry_delay.getD 5), []⟩ :=
    retryLoop_failThenOk _ errf _ _ _ k hk (fun i hi => hfail _ i hi) (hok _)
  refine ⟨?_, ?_, ?_, ?_⟩
  · rw [hbuild]
  · rw [attemptsOf, hbuild]
    exact countP_attempt_failThenOk _ _ _
  · rw [sleepsOf, hbuild]
    exact countP_sleep_failThenOk _ _ _
  · rw [hbuild]

/-- Witness for C8: a build collaborator that fails attempts 0 and 1 and
succeeds on attempt 2, with the default `max_retries = 3`, `retry_delay = 5`. -/
theorem build_retry_fail_then_succeed_witness :
    (build_image bcFail {} dopFlaky).ret = some true ∧
    attemptsOf (build_image bcFail {} dopFlaky) = 3 ∧
    sleepsOf (build_image bcFail {} dopFlaky) = 2 ∧
    (build_image bcFail {} dopFlaky).events = failThenOkEvents 0 2 5 :=
  build_retry_fail_then_succeed bcFail {} dopFlaky errFlaky 2 (by decide)
    (fun r i hi => by simp [dopFlaky, errFlaky, hi]) (fun r => by simp [dopFlaky])

/-- Claim C10: for every build configuration, whatever the configured region
string, `build_image` does not reject the job: the resolved region is always
`"global"` or `"china"` (an invalid value falls back to `"global"`), the
`REGION` build argument passed to `client.images.build` is exactly that
resolved region, and the job proceeds into the retry loop unconditionally. -/
theorem region_always_normalized (bc : BuildConfig) (cfg : Config)
    (dop : BuildRequest → Nat → Except String Unit) :
    (resolvedRegion bc cfg = "global" ∨ resolvedRegion bc cfg = "china") ∧
    lookupArg (buildRequestOf bc cfg).buildargs "REGION" = some (resolvedRegion bc cfg) ∧
    build_image bc cfg dop =
      retryLoop (dop (buildRequestOf bc cfg)) (cfg.max_retries.getD 3)
        (cfg.retry_delay.getD 5) (buildErrMsg bc.tag (cfg.max_retries.getD 3)) := by
  refine ⟨?_, ?_, rfl⟩
  · rw [resolvedRegion]
    by_cases h : bc.region.getD (cfg.region.getD "global") = "global" ∨
        bc.region.getD (cfg.region.getD "global") = "china"
    · simp [h]
    · simp [h]
  · rw [buildRequestOf]
    simp only
    rw [lookupArg_setArg_ne _ _ _ _ (by decide : ("TYPE" : String) ≠ "REGION")]
    exact lookupArg_setArg_self _ _ _

/-- Claim C1 counterexample: a run whose single job ends `Failed` (result
`False`, error-summary entry present) but that received no interrupt signal
(`sigint_count = 0`) exits with code 0 — the claim demands a non-zero exit
code for every run with at least one failed job and no interrupt. -/
theorem exit_code_ignores_failures_cex :
    (run_tasks_build [bcFail] {} [] dopFail).map LoopResult.ret = [some false] ∧
    runErrors (run_tasks_build [bcFail] {} [] dopFail) =
      ["Failed to build image app:1 after 3 attempts: boom"] ∧
    processExit (runErrors (run_tasks_build [bcFail] {} [] dopFail)) 0 = 0 := by
  decide

/-- Claim C1 amended: the exit code of `main` is 1 iff an interrupt signal was
received (`sigint_count > 0`) and 0 otherwise; job failures are printed in the
error summary but play no part in the exit code, which is the same for every
error-summary content. -/
theorem exit_code_iff_interrupted (builds : List BuildConfig) (cfg : Config)
    (tags : List String) (dop : BuildRequest → Nat → Except String Unit)
    (errs : List String) (n : Nat) :
    (processExit (runErrors (run_tasks_build builds cfg tags dop)) n = 1 ↔ 0 < n) ∧
    (processExit (runErrors (run_tasks_build builds cfg tags dop)) n = 0 ↔ n = 0) ∧
    processExit (runErrors (run_tasks_build builds cfg tags dop)) n = processExit errs n := by
  rw [processExit, processExit]
  by_cases h : 0 < n
  · simp [h]
    omega
  · simp [h]
    omega

/-- Claim C2 counterexample: with a hard stop in force, the retry loop of
`build_image` — which reads no cancellation state whatsoever — still sleeps
the full backoff and performs a second attempt against an always-failing
collaborator, and the job's outcome is `False` (`Failed`); there is no
`Cancelled` outcome anywhere (loop results range over `Option Bool`).  The
claim demands that the loop abort immediately with `Cancelled` and that no
backoff sleep occur. -/
theorem retry_ignores_hard_stop_cex :
    Event.sleep 5 ∈
      (build_image_underCancellation .HardStopRequested bcFail cfgTwo dopFail).events ∧
    (build_image_underCancellation .HardStopRequested bcFail cfgTwo dopFail).ret =
      some false ∧
    attemptsOf (build_image_underCancellation .HardStopRequested bcFail cfgTwo dopFail) =
      2 := by
  decide

/-- Claim C2 amended: the retry loop contains no cancellation check — it
computes the same result under every cancellation state, and for an
always-failing operation it sleeps the configured backoff after every
non-final attempt (`max_retries - 1` sleeps in total).  A hard stop (second
SIGINT) instead terminates the whole process via `os._exit(1)` with exit code
1 (the first SIGINT only sets `stop_event`), so no further attempts happen,
but no `Cancelled` outcome is recorded for the interrupted job. -/
theorem retry_loop_never_checks_cancellation
    (c c' : CancellationState) (bc : BuildConfig) (cfg : Config)
    (dop : BuildRequest → Nat → Except String Unit) (errf : Nat → String)
    (hm : 1 ≤ cfg.max_retries.getD 3)
    (hb : ∀ r i, dop r i = .error (errf i)) :
    build_image_underCancellation c bc cfg dop =
      build_image_underCancellation c' bc cfg dop ∧
    sleepsOf (build_image_underCancellation c bc cfg dop) =
      cfg.max_retries.getD 3 - 1 ∧
    (signal_handler procStart).stop_event = true ∧
    (signal_handler procStart).exited = none ∧
    (signal_handler (signal_handler procStart)).exited = some 1 := by
  refine ⟨rfl, ?_, rfl, rfl, rfl⟩
  rw [build_image_underCancellation, sleepsOf, build_image,
    retryLoop_allFail _ errf _ _ _ (fun i => hb _ i) hm]
  exact countP_sleep_allFail _ _ _

/-- Witness for the amended C2 at `max_retries = 2` with an always-failing
build collaborator, comparing the hard-stop state against the running state. -/
theorem retry_loop_never_checks_cancellation_witness :
    build_image_underCancellation .HardStopRequested bcFail cfgTwo dopFail =
      build_image_underCancellation .Running bcFail cfgTwo dopFail ∧
    sleepsOf (build_image_underCancellation .HardStopRequested bcFail cfgTwo dopFail) = 1 ∧
    (signal_handler procStart).stop_event = true ∧
    (signal_handler procStart).exited = none ∧
    (signal_handler (signal_handler procStart)).exited = some 1 :=
  retry_loop_never_checks_cancellation .HardStopRequested .Running bcFail cfgTwo
    dopFail errConst (by decide) (fun _ _ => rfl)

/-- Claim C3 counterexample: after a soft stop with only job `a` started, job
`b` is cancelled and never started, and the run exits 1 — but `b` is recorded
nowhere: the run's only records (the executed jobs' results and the error
summary) contain no entry for `b`, and no `Cancelled` outcome value exists in
the program.  The claim demands that `b` be "recorded with outcome
Cancelled". -/
theorem soft_stop_unrecorded_cex :
    (run_tasks_softStop [bcA, bcB] {} startedA dopOk).cancelled = [bcB] ∧
    (run_tasks_softStop [bcA, bcB] {} startedA dopOk).executed.map
      (fun p => p.1.tag) = ["a"] ∧
    runErrors ((run_tasks_softStop [bcA, bcB] {} startedA dopOk).executed.map
      Prod.snd) = [] ∧
    processExit
      (runErrors ((run_tasks_softStop [bcA, bcB] {} startedA dopOk).executed.map
        Prod.snd))
      (run_tasks_softStop [bcA, bcB] {} startedA dopOk).sigintCount = 1 := by
  decide

/-- Claim C3 amended: after a soft stop, every job the scheduler had not yet
started is cancelled and never started (it appears in no executed record),
every already-started job runs its full retry loop to completion, and the
process exit code is 1; however, cancelled jobs produce no record of any kind
— in particular no `Cancelled` outcome, a status that does not exist in the
program. -/
theorem soft_stop_partition (builds : List BuildConfig) (cfg : Config)
    (started : BuildConfig → Bool) (dop : BuildRequest → Nat → Except String Unit) :
    (∀ bc, bc ∈ (run_tasks_softStop builds cfg started dop).cancelled →
      started bc = false ∧
      bc ∉ (run_tasks_softStop builds cfg started dop).executed.map Prod.fst) ∧
    (∀ bc, bc ∈ builds → started bc = true →
      (bc, build_image bc cfg dop) ∈ (run_tasks_softStop builds cfg started dop).executed) ∧
    (∀ p, p ∈ (run_tasks_softStop builds cfg started dop).executed →
      started p.1 = true ∧ p.2 = build_image p.1 cfg dop) ∧
    processExit
      (runErrors ((run_tasks_softStop builds cfg started dop).executed.map Prod.snd))
      (run_tasks_softStop builds cfg started dop).sigintCount = 1 := by
  refine ⟨?_, ?_, ?_, rfl⟩
  · intro bc hmem
    rw [run_tasks_softStop] at hmem
    simp only [List.mem_filter, Bool.not_eq_true'] at hmem
    refine ⟨hmem.2, ?_⟩
    rw [run_tasks_softStop]
    simp only [List.map_map, List.mem_map, Function.comp]
    rintro ⟨x, hx, hfx⟩
    simp only [List.mem_filter] at hx
    rw [← hfx] at hmem
    rw [hmem.2] at hx
    simp at hx
  · intro bc hb hs
    rw [run_tasks_softStop]
    simp only [List.mem_map]
    exact ⟨bc, by simp [List.mem_filter, hb, hs], rfl⟩
  · intro p hp
    rw [run_tasks_softStop] at hp
    simp only [List.mem_map] at hp
    obtain ⟨x, hx, hfx⟩ := hp
    simp only [List.mem_filter] at hx
    rw [← hfx]
    exact ⟨hx.2, rfl⟩

/-- Witness for the amended C3: two jobs, only `a` started, the surviving job
keeps its full result and the run exits 1. -/
theorem soft_stop_partition_witness :
    (bcA, build_image bcA {} dopOk) ∈
      (run_tasks_softStop [bcA, bcB] {} startedA dopOk).executed ∧
    startedA bcB = false ∧
    bcB ∉ (run_tasks_softStop [bcA, bcB] {} startedA dopOk).executed.map Prod.fst ∧
    processExit
      (runErrors ((run_tasks_softStop [bcA, bcB] {} startedA dopOk).executed.map
        Prod.snd))
      (run_tasks_softStop [bcA, bcB] {} startedA dopOk).sigintCount = 1 := by
  have h := soft_stop_partition [bcA, bcB] {} startedA dopOk
  have hb := h.1 bcB (by decide)
  exact ⟨h.2.1 bcA (by decide) (by decide), hb.1, hb.2, h.2.2.2⟩

/-- Claim C4 counterexample: in `cmd_build` of the mcdr script, the very first
job's build failure raises `CalledProcessError` out of `subprocess.check_call`
and stops the loop: only 1 of the 20 configured jobs is ever attempted, so a
single job's failure does abort its sibling jobs, and no aggregate report is
reached. -/
theorem failure_aborts_siblings_mcdr_cex :
    (cmd_build false none okFailAllBuilds).1.length = 1 ∧
    (cmd_build false none okFailAllBuilds).2 = false ∧
    iterate_all.length = 20 := by
  decide

/-- Claim C4 amended: in `docker/runtime/build.py`, every dispatched job yields
its own outcome computed solely from its own operation — an exhausted-retries
failure marks that job `Failed` and leaves every sibling's outcome unchanged,
with all failures aggregated in the error summary; but in
`builder/runtime/minecraft/mcdr/build.py` a job failure propagates as
`CalledProcessError` and aborts all remaining jobs (counterexample). -/
theorem dispatched_jobs_all_attempted (builds : List BuildConfig) (cfg : Config)
    (tags : List String) (dop : BuildRequest → Nat → Except String Unit) :
    (run_tasks_build builds cfg tags dop).length = (filterBuilds builds tags).length ∧
    (∀ i bc, (filterBuilds builds tags).get? i = some bc →
      (run_tasks_build builds cfg tags dop).get? i = some (build_image bc cfg dop)) ∧
    runErrors (run_tasks_build builds cfg tags dop) =
      (filterBuilds builds tags).flatMap (fun bc => (build_image bc cfg dop).errors) := by
  refine ⟨by simp [run_tasks_build], ?_, ?_⟩
  · intro i bc h
    rw [run_tasks_build, List.get?_map, h]
    rfl
  · rw [runErrors, run_tasks_build, List.flatMap_map]

/-- Witness for the amended C4: a single failing job still yields exactly its
own outcome at its own position. -/
theorem dispatched_jobs_all_attempted_witness :
    (filterBuilds [bcFail] []).get? 0 = some bcFail ∧
    (run_tasks_build [bcFail] {} [] dopFail).get? 0 =
      some (build_image bcFail {} dopFail) :=
  ⟨rfl, (dispatched_jobs_all_attempted [bcFail] {} [] dopFail).2.1 0 bcFail rfl⟩

/-- Claim C5 counterexample: deleting a tag that is absent from the image
store goes straight into the retry loop (there is no existence probe), fails
all 3 default attempts on `ImageNotFound`, ends `Failed` (`False`) with an
error-summary entry — not `Skipped`, a status that does not exist in the
program. -/
theorem delete_absent_not_skipped_cex :
    (delete_image "app:1" {} (fun _ => imageRemove [] "app:1")).ret = some false ∧
    attemptsOf (delete_image "app:1" {} (fun _ => imageRemove [] "app:1")) = 3 ∧
    (delete_image "app:1" {} (fun _ => imageRemove [] "app:1")).errors =
      ["Failed to delete image app:1 after 3 attempts: 404 Client Error: image not found: app:1"] := by
  decide

/-- Claim C5 amended: `delete_image` performs no existence probe — removal is
attempted directly through the retry loop, so a non-existent tag fails every
attempt and ends `Failed` after `max_retries` attempts with an error-summary
entry.  (It still never contributes to a non-zero exit code, but only because
no job failure does.) -/
theorem delete_no_existence_probe (tag : String) (cfg : Config)
    (images : List String) (hm : 1 ≤ cfg.max_retries.getD 3)
    (habs : images.contains tag = false) :
    (delete_image tag cfg (fun _ => imageRemove images tag)).ret = some false ∧
    attemptsOf (delete_image tag cfg (fun _ => imageRemove images tag)) =
      cfg.max_retries.getD 3 ∧
    (delete_image tag cfg (fun _ => imageRemove images tag)).errors =
      [deleteErrMsg tag (cfg.max_retries.getD 3)
        ("404 Client Error: image not found: " ++ tag)] := by
  have hop : ∀ i, (fun _ : Nat => imageRemove images tag) i =
      Except.error ("404 Client Error: image not found: " ++ tag) := by
    intro i
    have hmem : tag ∉ images := by simpa using habs
    simp [imageRemove, hmem]
  have hdel : delete_image tag cfg (fun _ => imageRemove images tag) =
      ⟨some false, allFailEvents 0 (cfg.max_retries.getD 3) (cfg.retry_delay.getD 5),
       [deleteErrMsg tag (cfg.max_retries.getD 3)
         ("404 Client Error: image not found: " ++ tag)]⟩ :=
    retryLoop_allFail _ (fun _ => "404 Client Error: image not found: " ++ tag)
      _ _ _ hop hm
  refine ⟨by rw [hdel], ?_, by rw [hdel]⟩
  rw [attemptsOf, hdel]
  exact countP_attempt_allFail _ _ _

/-- Witness for the amended C5 at the default `max_retries = 3` and an image
store that does not hold the tag. -/
theorem delete_no_existence_probe_witness :
    (["other:1"] : List String).contains "app:1" = false ∧
    (delete_image "app:1" {} (fun _ => imageRemove ["other:1"] "app:1")).ret =
      some false ∧
    attemptsOf (delete_image "app:1" {} (fun _ => imageRemove ["other:1"] "app:1")) = 3 := by
  have h := delete_no_existence_probe "app:1" {} ["other:1"] (by decide) (by decide)
  exact ⟨by decide, h.1, h.2.1⟩

/-! ### Helper lemmas about the mcdr `cmd_build` loop -/

theorem cmd_build_aux_cons_fail (push : Bool) (proxy : Option String)
    (ok : McdrCmd → Bool) (c : Context) (rest : List Context)
    (hb : ok (buildCmdOf proxy c) = false) :
    cmd_build_aux push proxy ok (c :: rest) = ([buildCmdOf proxy c], false) := by
  simp [cmd_build_aux, hb]

theorem cmd_build_aux_cons_ok_nopush (proxy : Option String) (ok : McdrCmd → Bool)
    (c : Context) (rest : List Context) (hb : ok (buildCmdOf proxy c) = true) :
    cmd_build_aux false proxy ok (c :: rest) =
      (buildCmdOf proxy c :: (cmd_build_aux false proxy ok rest).1,
       (cmd_build_aux false proxy ok rest).2) := by
  simp [cmd_build_aux, hb]

theorem cmd_build_aux_cons_ok_push_ok (proxy : Option String) (ok : McdrCmd → Bool)
    (c : Context) (rest : List Context) (hb : ok (buildCmdOf proxy c) = true)
    (hp : ok (McdrCmd.push c.tag) = true) :
    cmd_build_aux true proxy ok (c :: rest) =
      (buildCmdOf proxy c :: McdrCmd.push c.tag :: (cmd_build_aux true proxy ok rest).1,
       (cmd_build_aux true proxy ok rest).2) := by
  simp [cmd_build_aux, hb, hp]

theorem cmd_build_aux_cons_ok_push_fail (proxy : Option String) (ok : McdrCmd → Bool)
    (c : Context) (rest : List Context) (hb : ok (buildCmdOf proxy c) = true)
    (hp : ok (McdrCmd.push c.tag) = false) :
    cmd_build_aux true proxy ok (c :: rest) =
      ([buildCmdOf proxy c, McdrCmd.push c.tag], false) := by
  simp [cmd_build_aux, hb, hp]

theorem cmd_build_aux_push_follows (proxy : Option String) (ok : McdrCmd → Bool) :
    ∀ (ctxs : List Context) (i : Nat) (ctx : Context),
      (cmd_build_aux true proxy ok ctxs).1.get? i = some (buildCmdOf proxy ctx) →
      ok (buildCmdOf proxy ctx) = true →
      (cmd_build_aux true proxy ok ctxs).1.get? (i + 1) = some (McdrCmd.push ctx.tag) := by
  intro ctxs
  induction ctxs with
  | nil =>
    intro i ctx h _
    simp [cmd_build_aux] at h
  | cons c rest ih =>
    intro i ctx h hok
    by_cases hb : ok (buildCmdOf proxy c) = true
    · by_cases hp : ok (McdrCmd.push c.tag) = true
      · rw [cmd_build_aux_cons_ok_push_ok proxy ok c rest hb hp] at h ⊢
        cases i with
        | zero =>
          simp only [List.get?] at h ⊢
          have hc : c = ctx := by
            simp only [buildCmdOf, Option.some.injEq, McdrCmd.build.injEq] at h
            exact h.1
          rw [hc]
        | succ i =>
          cases i with
          | zero =>
            simp only [List.get?, Option.some.injEq] at h
            simp [buildCmdOf] at h
          | succ i =>
            simp only [List.get?] at h ⊢
            exact ih i ctx h hok
      · rw [cmd_build_aux_cons_ok_push_fail proxy ok c rest hb
          (by simpa using hp)] at h ⊢
        cases i with
        | zero =>
          simp only [List.get?] at h ⊢
          have hc : c = ctx := by
            simp only [buildCmdOf, Option.some.injEq, McdrCmd.build.injEq] at h
            exact h.1
          rw [hc]
        | succ i =>
          cases i with
          | zero =>
            simp only [List.get?, Option.some.injEq] at h
            simp [buildCmdOf] at h
          | succ i =>
            simp only [List.get?] at h
            simp at h
    · rw [cmd_build_aux_cons_fail true proxy ok c rest (by simpa using hb)] at h ⊢
      cases i with
      | zero =>
        simp only [List.get?, Option.some.injEq] at h
        have hc : c = ctx := by
          simp only [buildCmdOf, McdrCmd.build.injEq] at h
          exact h.1
        rw [hc] at hb
        exact absurd hok hb
      | succ i =>
        simp at h

theorem cmd_build_aux_filter_take (push : Bool) (proxy : Option String)
    (ok : McdrCmd → Bool) :
    ∀ ctxs : List Context, ∃ m : Nat,
      (cmd_build_aux push proxy ok ctxs).1.filter isBuildCmd =
        (ctxs.take m).map (buildCmdOf proxy) := by
  intro ctxs
  induction ctxs with
  | nil => exact ⟨0, by simp [cmd_build_aux]⟩
  | cons c rest ih =>
    obtain ⟨m, hm⟩ := ih
    by_cases hb : ok (buildCmdOf proxy c) = true
    · cases push with
      | false =>
        refine ⟨m + 1, ?_⟩
        rw [cmd_build_aux_cons_ok_nopush proxy ok c rest hb]
        simp only [List.filter_cons, List.take_succ_cons, List.map_cons]
        rw [show isBuildCmd (buildCmdOf proxy c) = true from rfl, hm]
        simp
      | true =>
        by_cases hp : ok (McdrCmd.push c.tag) = true
        · refine ⟨m + 1, ?_⟩
          rw [cmd_build_aux_cons_ok_push_ok proxy ok c rest hb hp]
          simp only [List.filter_cons, List.take_succ_cons, List.map_cons]
          rw [show isBuildCmd (buildCmdOf proxy c) = true from rfl,
            show isBuildCmd (McdrCmd.push c.tag) = false from rfl, hm]
          simp
        · refine ⟨1, ?_⟩
          rw [cmd_build_aux_cons_ok_push_fail proxy ok c rest hb (by simpa using hp)]
          simp [isBuildCmd, buildCmdOf]
    · refine ⟨1, ?_⟩
      rw [cmd_build_aux_cons_fail push proxy ok c rest (by simpa using hb)]
      simp [isBuildCmd, buildCmdOf]

/-- Claim C6 counterexample: in `cmd_build` with `--push` and an all-success
collaborator, the second command issued is already a `docker push` (of the
first tag) while the build of the second context — and 18 more builds — are
still to come: pushes are not deferred until the entire build phase has
completed. -/
theorem push_before_build_phase_ends_cex :
    (cmd_build true none okAll).1.get? 1 = some (McdrCmd.push mcdrCtx1.tag) ∧
    (cmd_build true none okAll).1.get? 2 = some (buildCmdOf none mcdrCtx2) ∧
    iterate_all.length = 20 := by
  decide

/-- Claim C6 amended: with push-after-build configured, execution is
interleaved per image, not two-phase: each successful build is immediately
followed by the push of that same tag, before the next build starts (with the
all-success collaborator the trace is exactly build₁, push₁, build₂, push₂,
…); a push failure stops the remaining builds, but completed builds are not
undone or re-run — the builds in any trace are the first `m` configured
contexts, each built exactly once. -/
theorem push_interleaved_per_image :
    (cmd_build true none okAll).1 =
      iterate_all.flatMap (fun c => [buildCmdOf none c, McdrCmd.push c.tag]) ∧
    (∀ (proxy : Option String) (ok : McdrCmd → Bool) (i : Nat) (ctx : Context),
      (cmd_build true proxy ok).1.get? i = some (buildCmdOf proxy ctx) →
      ok (buildCmdOf proxy ctx) = true →
      (cmd_build true proxy ok).1.get? (i + 1) = some (McdrCmd.push ctx.tag)) ∧
    (∀ (push : Bool) (proxy : Option String) (ok : McdrCmd → Bool), ∃ m : Nat,
      (cmd_build push proxy ok).1.filter isBuildCmd =
        (iterate_all.take m).map (buildCmdOf proxy)) := by
  refine ⟨by decide, ?_, ?_⟩
  · intro proxy ok i ctx h hok
    exact cmd_build_aux_push_follows proxy ok iterate_all i ctx h hok
  · intro push proxy ok
    exact cmd_build_aux_filter_take push proxy ok iterate_all

/-- Witness for the amended C6: in the all-success pushing run, the first
command is the build of the first context and the second is its push. -/
theorem push_interleaved_per_image_witness :
    (cmd_build true none okAll).1.get? 0 = some (buildCmdOf none mcdrCtx1) ∧
    okAll (buildCmdOf none mcdrCtx1) = true ∧
    (cmd_build true none okAll).1.get? 1 = some (McdrCmd.push mcdrCtx1.tag) :=
  ⟨by decide, rfl,
    push_interleaved_per_image.2.1 none okAll 0 mcdrCtx1 (by decide) rfl⟩

/-! ### Helper lemmas about the worker pool -/

theorem pool_invariant (N : Nat) (exec : BuildConfig → LoopResult)
    (jobs : List BuildConfig) (s : PoolState)
    (h : PoolReachable N exec jobs s) :
    s.running.length ≤ N ∧
    (s.pending ++ s.running ++ s.done.map Prod.fst).Perm jobs := by
  induction h with
  | refl => simp [poolStart]
  | tail _ hstep ih =>
    obtain ⟨ihlen, ihperm⟩ := ih
    cases hstep with
    | start bc p₁ p₂ s' hsp hlen =>
      refine ⟨by simp only [List.length_cons]; omega, ?_⟩
      rw [List.perm_iff_count] at ihperm ⊢
      intro x
      have hx := ihperm x
      rw [hsp] at hx
      simp only [List.count_append, List.count_cons] at hx ⊢
      omega
    | finish bc r₁ r₂ s' hsr =>
      rw [hsr] at ihlen
      constructor
      · simp only [List.length_append, List.length_cons] at ihlen ⊢
        omega
      · rw [List.perm_iff_count] at ihperm ⊢
        intro x
        have hx := ihperm x
        rw [hsr] at hx
        simp only [List.count_append, List.count_cons, List.map_cons] at hx ⊢
        omega

/-- Claim C9: with `N = max_parallel_tasks` (default 5), in every reachable
state of the executor running the submitted (tag-filtered) jobs, at most `N`
jobs execute concurrently; when the pool has drained, each submitted job has
yielded exactly one outcome; and when the configured tags are distinct, no tag
is ever processed by two workers at once nor appears twice among the outcomes. -/
theorem pool_bounded_and_exactly_once
    (builds : List BuildConfig) (cfg : Config) (tags : List String)
    (dop : BuildRequest → Nat → Except String Unit) (s : PoolState)
    (h : PoolReachable (cfg.max_parallel_tasks.getD 5)
      (fun bc => build_image bc cfg dop) (filterBuilds builds tags) s) :
    s.running.length ≤ cfg.max_parallel_tasks.getD 5 ∧
    (s.pending ++ s.running ++ s.done.map Prod.fst).Perm (filterBuilds builds tags) ∧
    (s.pending = [] → s.running = [] →
      s.done.length = (filterBuilds builds tags).length) ∧
    (((filterBuilds builds tags).map (fun b => b.tag)).Nodup →
      (s.running.map (fun b => b.tag)).Nodup ∧
      (s.done.map (fun p => p.1.tag)).Nodup) := by
  obtain ⟨h1, h2⟩ := pool_invariant _ _ _ _ h
  refine ⟨h1, h2, ?_, ?_⟩
  · intro hp hr
    have hlen := h2.length_eq
    rw [hp, hr] at hlen
    simpa using hlen
  · intro hnd
    have hall : ((s.pending ++ s.running ++ s.done.map Prod.fst).map
        (fun b => b.tag)).Nodup := ((h2.map (fun b => b.tag)).nodup_iff).2 hnd
    simp only [List.map_append, List.map_map, List.nodup_append, Function.comp] at hall
    exact ⟨by tauto, by tauto⟩

/-- Witness for C9: the two-step run of a single job `a` — picked up by a
worker, then finished — reaches the drained state with exactly one outcome
and no duplicate tag. -/
theorem pool_bounded_and_exactly_once_witness :
    poolS2.done.length = (filterBuilds [bcA] []).length ∧
    (poolS2.done.map (fun p => p.1.tag)).Nodup ∧
    poolS2.running.length ≤ 5 := by
  have hstep1 : PoolStep 5 (fun bc => build_image bc {} dopOk)
      (poolStart (filterBuilds [bcA] [])) poolS1 := by
    have := @PoolStep.start 5 (fun bc => build_image bc {} dopOk)
      bcA [] [] (poolStart (filterBuilds [bcA] [])) rfl (by decide)
    simpa [poolStart, poolS1] using this
  have hstep2 : PoolStep 5 (fun bc => build_image bc {} dopOk) poolS1 poolS2 := by
    have := @PoolStep.finish 5 (fun bc => build_image bc {} dopOk)
      bcA [] [] poolS1 rfl
    simpa [poolS1, poolS2] using this
  have hreach : PoolReachable 5 (fun bc => build_image bc {} dopOk)
      (filterBuilds [bcA] []) poolS2 :=
    Relation.ReflTransGen.tail (Relation.ReflTransGen.tail Relation.ReflTransGen.refl
      hstep1) hstep2
  have h := pool_bounded_and_exactly_once [bcA] {} [] dopOk poolS2 hreach
  exact ⟨h.2.2.1 rfl rfl, (h.2.2.2 (by decide)).2, h.1⟩

end PteroFiles
